import Mathlib

/-!
Shallow embedding of the PamAuth repository (a PIN authentication helper
made of a verifier binary `check_pin`, a provisioner binary `genpin`, and
a hashing library `pin_auth`), together with theorems checking the
natural-language specification against the code.

Rust strings are embedded as lists of characters (`RStr`).  Byte lengths
(`str::len`) are computed with `Char.utf8Size`, which agrees with Rust's
UTF-8 byte count.  Machine integers (`u32`, `u64`, `usize`) are embedded
as `Nat` with explicit range checks where the code performs them
(`str::parse` rejects out-of-range values; `saturating_add` saturates at
`2 ^ 64 - 1`).
-/

namespace PamAuth

/-- Rust `String` / `&str`, embedded as its sequence of characters. -/
abbrev RStr := List Char

/-- Rust `char::is_ascii_digit`. -/
def is_ascii_digit (c : Char) : Bool := ('0' ≤ c) && (c ≤ '9')

/-- Rust `char::is_ascii_alphanumeric`. -/
def is_ascii_alphanumeric (c : Char) : Bool :=
  (('a' ≤ c) && (c ≤ 'z')) || (('A' ≤ c) && (c ≤ 'Z')) || (('0' ≤ c) && (c ≤ '9'))

/-- Rust `str::len`: the number of UTF-8 bytes of the string. -/
def utf8_len (s : RStr) : Nat := (s.map Char.utf8Size).sum

/-- Rust `str::starts_with` on string patterns (byte-prefix test,
embedded at character granularity, which coincides for UTF-8 data). -/
def starts_with : RStr → RStr → Bool
  | _, [] => true
  | [], _ :: _ => false
  | c :: s, p :: ps => (c == p) && starts_with s ps

/-- Whitespace recognized by `str::trim` (restricted to the ASCII
whitespace characters, which covers every record this program writes). -/
def is_rust_space (c : Char) : Bool := c = ' ' || c = '\t' || c = '\n' || c = '\r'

/-- Drop leading whitespace characters. -/
def drop_leading_ws : RStr → RStr
  | [] => []
  | c :: s => if is_rust_space c then drop_leading_ws s else c :: s

/-- Rust `str::trim`: removes leading and trailing whitespace. -/
def rust_trim (s : RStr) : RStr :=
  ((drop_leading_ws ((drop_leading_ws s).reverse)).reverse)

/-- Rust `input.trim_end_matches('\n')` as used by the verifier on the
raw stdin contents: removes every trailing newline character. -/
def trim_end_matches_nl (s : RStr) : RStr :=
  (s.reverse.dropWhile (fun c => c = '\n')).reverse

/-- Rust `str::split_once(':')`: splits at the first colon, if any. -/
def split_once_colon : RStr → Option (RStr × RStr)
  | [] => none
  | c :: s =>
    if c = ':' then some ([], s)
    else match split_once_colon s with
      | some (a, b) => some (c :: a, b)
      | none => none

/-- Decimal value of a digit string (left fold, most significant first). -/
def digits_to_nat : RStr → Nat → Nat
  | [], acc => acc
  | c :: s, acc => digits_to_nat s (acc * 10 + (c.toNat - 48))

/-- Shared core of unsigned-integer parsing: a non-empty all-digit
string, read in base 10. -/
def parse_uint_core (s : RStr) : Option Nat :=
  if s.isEmpty then none
  else if s.all is_ascii_digit then some (digits_to_nat s 0) else none

/-- Rust `str::parse::<uN>()` for an N-bit unsigned integer: an optional
leading plus sign, then decimal digits; out-of-range values are errors. -/
def parse_uint (bits : Nat) (s : RStr) : Option Nat :=
  let t : RStr := match s with
    | '+' :: rest => rest
    | _ => s
  match parse_uint_core t with
  | some v => if v < 2 ^ bits then some v else none
  | none => none

/-- Rust `u64::saturating_add`. -/
def sat_add_u64 (a b : Nat) : Nat := min (a + b) (2 ^ 64 - 1)

/-- Decimal rendering, as Rust's `format!("{}", n)` produces for an
unsigned integer. -/
def natToRStr (n : Nat) : RStr := (Nat.repr n).data

/-- `check_pin.rs` `validate_username`: 1..32 bytes, charset
`[A-Za-z0-9_-]`, first character alphanumeric or underscore, no `/`.
(The comment in the source also promises "not all digits", but no such
check exists in the function body.) -/
def validate_username (u : RStr) : Bool :=
  if u.isEmpty || utf8_len u > 32 then false
  else
    match u with
    | [] => false
    | first :: _ =>
      if !(is_ascii_alphanumeric first || first = '_') then false
      else if u.contains '/' then false
      else u.all (fun c => is_ascii_alphanumeric c || c = '_' || c = '-')

/-! ## Hash engine (`src/lib.rs`) -/

/-- `lib.rs` `Scheme`. -/
inductive Scheme | sha512Crypt | argon2id
deriving DecidableEq

/-- `lib.rs` `PinHashError` (the `ParseFailure` variant is never
produced by `hash_pin` and is omitted). -/
inductive PinHashError
  | unsupportedScheme
  | hashFailure (msg : RStr)
deriving DecidableEq

/-- `lib.rs` `scheme_from_env`, applied to the (lowercased) value of
`PIN_SCHEME`. -/
def scheme_from_env (v : RStr) : Scheme :=
  if v = "argon2".data || v = "argon2id".data then Scheme.argon2id else Scheme.sha512Crypt

/-- `zeroize::Zeroize` on a Rust `String`: the bytes are overwritten
and the buffer is cleared, so the observable content afterwards is
empty. -/
def zeroize (_s : RStr) : RStr := []

/-- Ambient parameters of the hashing library: which cargo features are
compiled in, the configured scheme, and the behaviour of the external
cryptographic primitives for this invocation (the salt drawn from the
random source is folded into the primitive functions). -/
structure LibEnv where
  shaCryptFeature : Bool
  argon2Feature : Bool
  envScheme : Scheme
  /-- `sha_crypt::sha512_simple` with this invocation's parameters. -/
  shaSimple : RStr → Except RStr RStr
  /-- `argon2`'s `hash_password` with this invocation's salt and params. -/
  argonHashPassword : RStr → Except RStr RStr
  /-- `sha_crypt::sha512_check candidate stored |>.is_ok()`. -/
  shaCheck : RStr → RStr → Bool
  /-- `PasswordHash::new(stored).is_ok()`. -/
  argonParseOk : RStr → Bool
  /-- `Argon2::default().verify_password(candidate, parsed).is_ok()`. -/
  argonVerify : RStr → RStr → Bool

/-- `lib.rs` `hash_pin`: returns the result together with the final
contents of the caller's plaintext PIN buffer.  The `?` early returns on
`HashFailure` and the `return Err(UnsupportedScheme)` branches leave the
buffer untouched; only the fall-through success path reaches the
`pin.zeroize()` at the end of the function. -/
def hash_pin (env : LibEnv) (pin : RStr) : Except PinHashError RStr × RStr :=
  match env.envScheme with
  | Scheme.sha512Crypt =>
    if env.shaCryptFeature then
      match env.shaSimple pin with
      | Except.error e => (Except.error (PinHashError.hashFailure e), pin)
      | Except.ok out => (Except.ok out, zeroize pin)
    else (Except.error PinHashError.unsupportedScheme, pin)
  | Scheme.argon2id =>
    if env.argon2Feature then
      match env.argonHashPassword pin with
      | Except.error e => (Except.error (PinHashError.hashFailure e), pin)
      | Except.ok out => (Except.ok out, zeroize pin)
    else (Except.error PinHashError.unsupportedScheme, pin)

/-- `lib.rs` `verify_pin`: detects the scheme from the stored record's
prefix (`$6$` → SHA512-CRYPT, `$argon2` → ARGON2ID, otherwise the
configured default), runs the corresponding primitive, scrubs the
candidate buffer, and returns the outcome together with the final
candidate buffer. -/
def verify_pin (env : LibEnv) (candidate stored : RStr) : Bool × RStr :=
  let scheme :=
    if starts_with stored ('$' :: '6' :: '$' :: []) then Scheme.sha512Crypt
    else if starts_with stored ('$' :: 'a' :: 'r' :: 'g' :: 'o' :: 'n' :: '2' :: []) then
      Scheme.argon2id
    else env.envScheme
  let ok :=
    match scheme with
    | Scheme.sha512Crypt =>
      if env.shaCryptFeature then env.shaCheck candidate stored else false
    | Scheme.argon2id =>
      if env.argon2Feature then
        if env.argonParseOk stored then env.argonVerify candidate stored else false
      else false
  (ok, zeroize candidate)

/-! ## Verifier (`src/check_pin.rs`) -/

/-- Exit code `EXIT_OK`. -/
def EXIT_OK : Nat := 0
/-- Exit code `EXIT_MISMATCH`. -/
def EXIT_MISMATCH : Nat := 1
/-- Exit code `EXIT_LOCKED`. -/
def EXIT_LOCKED : Nat := 2
/-- Exit code `EXIT_INPUT`. -/
def EXIT_INPUT : Nat := 3
/-- Exit code `EXIT_CONFIG`. -/
def EXIT_CONFIG : Nat := 4

/-- The verifier's configuration, after the environment variables have
been parsed with their defaults (`PIN_MAX_FAILS` = 5,
`PIN_LOCKOUT_SECS` = 300, `PIN_FAIL_WINDOW` = 900, `PIN_MIN_LEN` = 4,
`PIN_MAX_LEN` = 6). -/
structure Config where
  maxFails : Nat
  lockoutSecs : Nat
  failWindow : Nat
  minLen : Nat
  maxLen : Nat
deriving DecidableEq

/-- The default configuration of `check_pin.rs`. -/
def defaultConfig : Config :=
  { maxFails := 5, lockoutSecs := 300, failWindow := 900, minLen := 4, maxLen := 6 }

/-- One invocation's view of its environment: the resolved username,
the result of directory resolution, the raw contents read from
`<dir>/<user>.passwd` (`none` when the open or read failed), the
failure-state file (`none` when absent), whether the failure-state
open (`O_NOFOLLOW | O_CLOEXEC`, create) succeeded, the raw stdin bytes,
the sampled clock, and the outcome of `verify_pin` as a function of the
candidate that would be submitted to it. -/
structure World where
  user : RStr
  dirResolved : Option RStr
  storedRaw : Option RStr
  failFile : Option RStr
  failOpenOk : Bool
  stdinData : RStr
  now : Nat
  verifies : RStr → Bool

/-- Result of one verifier invocation: the process exit code and the
final contents of the failure-state file (`none` = absent). -/
structure MainOut where
  exitCode : Nat
  failFile : Option RStr
deriving DecidableEq

/-- Parsed failure-state record, mirroring the branch structure of
`check_pin.rs` lines 160-183: a `lock:` prefix with a parseable `u64`
is a lock record; otherwise a `count:first_ts` pair of parseable
integers; otherwise a bare legacy count (first timestamp = now); any
other content leaves the counters at their initial `(0, now)`. -/
inductive FailParse
  | lockedUntil (u : Nat)
  | counting (c t : Nat)
  | openSt
deriving DecidableEq

/-- Parse one (trimmed) failure-state line, as `check_pin.rs` does. -/
def parse_fail_line (now : Nat) (line : RStr) : FailParse :=
  if starts_with line ('l' :: 'o' :: 'c' :: 'k' :: ':' :: []) then
    match parse_uint 64 (line.drop 5) with
    | some u => FailParse.lockedUntil u
    | none => FailParse.openSt
  else
    match split_once_colon line with
    | some (cnt, ts) =>
      match parse_uint 32 cnt, parse_uint 64 ts with
      | some c, some t => FailParse.counting c t
      | _, _ => FailParse.openSt
    | none =>
      match parse_uint 32 line with
      | some c => FailParse.counting c now
      | none => FailParse.openSt

/-- The `lock:{until}\n` record written by the verifier. -/
def render_lock (untilTs : Nat) : RStr :=
  'l' :: 'o' :: 'c' :: 'k' :: ':' :: (natToRStr untilTs ++ ['\n'])

/-- The `{count}:{first_ts}\n` record written by the verifier. -/
def render_count (c t : Nat) : RStr :=
  natToRStr c ++ ':' :: (natToRStr t ++ ['\n'])

/-- `check_pin.rs` lines 230-262: outcome persistence after hash
verification.  `canWrite` is false when the failure-state open failed
and the handle is the read-only `/dev/null` fallback, in which case all
`set_len`/`write_all` calls fail and are ignored. -/
def after_verify (cfg : Config) (canWrite : Bool) (fileAfterOpen : Option RStr)
    (now failCount firstTs : Nat) (ok : Bool) : MainOut :=
  if ok then
    { exitCode := EXIT_OK, failFile := if canWrite then some [] else fileAfterOpen }
  else
    let c1 := failCount + 1
    let record :=
      if c1 ≥ cfg.maxFails then
        if cfg.lockoutSecs > 0 then render_lock (sat_add_u64 now cfg.lockoutSecs)
        else render_count c1 firstTs
      else render_count c1 firstTs
    { exitCode := if c1 ≥ cfg.maxFails then EXIT_LOCKED else EXIT_MISMATCH,
      failFile := if canWrite then some record else fileAfterOpen }

/-- `check_pin.rs` lines 185-262: the window reset, the threshold entry
gate, candidate ingestion and validation, hash verification and outcome
persistence.  `c0`/`t0` are the counters produced by parsing the
failure-state record. -/
def check_pin_after_parse (cfg : Config) (w : World) (canWrite : Bool)
    (fileAfterOpen : Option RStr) (c0 t0 : Nat) : MainOut :=
  let failCount := if cfg.failWindow > 0 && w.now - t0 > cfg.failWindow then 0 else c0
  let firstTs := if cfg.failWindow > 0 && w.now - t0 > cfg.failWindow then w.now else t0
  if failCount ≥ cfg.maxFails then
    { exitCode := EXIT_LOCKED,
      failFile :=
        if cfg.lockoutSecs > 0 && canWrite then
          some (render_lock (sat_add_u64 w.now cfg.lockoutSecs))
        else fileAfterOpen }
  else
    let candidate := trim_end_matches_nl w.stdinData
    if candidate.isEmpty then { exitCode := EXIT_INPUT, failFile := fileAfterOpen }
    else if utf8_len candidate < cfg.minLen || utf8_len candidate > cfg.maxLen
        || !(candidate.all is_ascii_digit) then
      { exitCode := EXIT_INPUT, failFile := fileAfterOpen }
    else
      after_verify cfg canWrite fileAfterOpen w.now failCount firstTs (w.verifies candidate)

/-- `check_pin.rs` `main`, from the username step onward (the root
privilege gate of lines 22-38 is ambient: a failed gate exits `CONFIG`
before any state is touched).  `dirResolved` is the result of
`secure_resolve_pin_dir`, modelled separately below. -/
def check_pin_main (cfg : Config) (w : World) : MainOut :=
  if w.user.isEmpty then { exitCode := EXIT_CONFIG, failFile := w.failFile }
  else if !validate_username w.user then { exitCode := EXIT_CONFIG, failFile := w.failFile }
  else
    match w.dirResolved with
    | none => { exitCode := EXIT_CONFIG, failFile := w.failFile }
    | some _ =>
      match w.storedRaw with
      | none => { exitCode := EXIT_MISMATCH, failFile := w.failFile }
      | some _stored =>
        let canWrite := w.failOpenOk
        let fileAfterOpen : Option RStr :=
          if canWrite then some (w.failFile.getD []) else w.failFile
        let content : RStr := if canWrite then w.failFile.getD [] else []
        match parse_fail_line w.now (rust_trim content) with
        | FailParse.lockedUntil u =>
          if w.now < u then { exitCode := EXIT_LOCKED, failFile := fileAfterOpen }
          else check_pin_after_parse cfg w canWrite fileAfterOpen 0 w.now
        | FailParse.counting c t => check_pin_after_parse cfg w canWrite fileAfterOpen c t
        | FailParse.openSt => check_pin_after_parse cfg w canWrite fileAfterOpen 0 w.now

/-! ## Store directory resolution (`check_pin.rs` `secure_resolve_pin_dir`) -/

/-- The metadata record returned by Rust's `fs::metadata` for the
requested directory path.  `fs::metadata` follows symbolic links, so
`isSymlinkFileType` is the file-type-is-symlink bit of the *followed*
target (by the contract of `std::fs::metadata` this bit is never set;
theorems that rely on that API fact take it as a hypothesis). -/
structure DirMeta where
  isSymlinkFileType : Bool
  uid : Nat
  mode : Nat
deriving DecidableEq

/-- The filesystem facts about the requested directory path that
`secure_resolve_pin_dir` can observe. `pathIsSymlink` is the
lstat-level fact of whether the path itself is a symbolic link; the
function never consults it. -/
structure DirView where
  isAbsolute : Bool
  metadataOf : Option DirMeta
  pathIsSymlink : Bool
deriving DecidableEq

/-- `check_pin.rs` `secure_resolve_pin_dir`: under effective uid 0,
requires an absolute path, stats it with `fs::metadata` (following
symlinks), rejects when the reported file type is a symlink, when the
owner is not root, or when the mode has group/world-write bits; under a
non-root euid the path is accepted as given.  `none` models the
`anyhow::bail!` error returns (which `main` maps to `EXIT_CONFIG`). -/
def secure_resolve_pin_dir (euidRoot : Bool) (input : RStr) (v : DirView) : Option RStr :=
  if euidRoot then
    if !v.isAbsolute then none
    else
      match v.metadataOf with
      | none => none
      | some md =>
        if md.isSymlinkFileType then none
        else if md.uid ≠ 0 then none
        else if (md.mode &&& 0o7777) &&& 0o022 ≠ 0 then none
        else some input
  else some input

/-! ## Provisioner (`src/genpin.rs`) -/

/-- One invocation's environment for `genpin`: the positional
arguments, the store directory, the `GENPIN_NONINTERACTIVE` value (if
set), the two interactively prompted PINs (used when it is not), the
length policy, whether `fs::create_dir_all` and the secret-file
open/write succeed, and the hashing outcome. -/
structure GenpinEnv where
  args : List RStr
  dir : RStr
  nonInteractive : Option RStr
  prompt1 : RStr
  prompt2 : RStr
  minLen : Nat
  maxLen : Nat
  createDirOk : Bool
  openWriteOk : Bool
  hashResult : Except PinHashError RStr

/-- Observable outcome of a `genpin` run: the exit status, the path
passed to `fs::remove_file` (the stale failure-state reset), and the
path and contents written as the secret file. -/
structure GenpinOut where
  exitOk : Bool
  removedFail : Option RStr
  wrotePasswd : Option (RStr × RStr)
deriving DecidableEq

/-- `genpin.rs` lines 28-39: the PIN and its confirmation come from
`GENPIN_NONINTERACTIVE` (`PIN[:CONFIRM]`, split at the first colon,
with the confirmation defaulting to the PIN), or else from the two
interactive prompts. -/
def resolved_pins (env : GenpinEnv) : RStr × RStr :=
  match env.nonInteractive with
  | some v =>
    match split_once_colon v with
    | some (a, b) => (a, b)
    | none => (v, v)
  | none => (env.prompt1, env.prompt2)

/-- `genpin.rs` `main`.  The username is the first positional argument,
taken verbatim: no validation of any kind is applied to it before it is
interpolated into `{dir}/{user}.passwd` and `{dir}/{user}.fail`. -/
def genpin_main (env : GenpinEnv) : GenpinOut :=
  match env.args.head? with
  | none => { exitOk := true, removedFail := none, wrotePasswd := none }
  | some user =>
    let p1 := (resolved_pins env).1
    let p2 := (resolved_pins env).2
    if p1 ≠ p2 then { exitOk := false, removedFail := none, wrotePasswd := none }
    else if env.minLen = 0 || env.minLen > 32 then
      { exitOk := false, removedFail := none, wrotePasswd := none }
    else if env.maxLen < env.minLen then
      { exitOk := false, removedFail := none, wrotePasswd := none }
    else if utf8_len p1 < env.minLen then
      { exitOk := false, removedFail := none, wrotePasswd := none }
    else if utf8_len p1 > env.maxLen then
      { exitOk := false, removedFail := none, wrotePasswd := none }
    else if !(p1.all is_ascii_digit) then
      { exitOk := false, removedFail := none, wrotePasswd := none }
    else if !env.createDirOk then
      { exitOk := false, removedFail := none, wrotePasswd := none }
    else
      match env.hashResult with
      | Except.error _ => { exitOk := false, removedFail := none, wrotePasswd := none }
      | Except.ok hash =>
        let passwdPath := env.dir ++ '/' :: (user ++ ".passwd".data)
        let failPath := env.dir ++ '/' :: (user ++ ".fail".data)
        if env.openWriteOk then
          { exitOk := true, removedFail := some failPath,
            wrotePasswd := some (passwdPath, hash ++ ['\n']) }
        else
          { exitOk := false, removedFail := some failPath, wrotePasswd := none }

/-! ## Spec-side reference definitions and concrete instances -/

/-- Modelled from the spec: "Read all of standard input, strip a single
trailing newline" — removes at most one trailing newline character.
(Reference definition for comparison with the code's
`trim_end_matches_nl`.) -/
def strip_single_trailing_newline (s : RStr) : RStr :=
  match s.getLast? with
  | some c => if c = '\n' then s.dropLast else s
  | none => s

/-- The invocation reaches the candidate-ingestion step: username
present and valid, directory resolved, secret readable, and the
rate-limit entry gate (active lock, window reset, threshold) passed. -/
def reaches_candidate (cfg : Config) (w : World) : Bool :=
  !w.user.isEmpty && validate_username w.user &&
  w.dirResolved.isSome && w.storedRaw.isSome &&
  (match parse_fail_line w.now
      (rust_trim (if w.failOpenOk then w.failFile.getD [] else [])) with
   | FailParse.lockedUntil u => decide (u ≤ w.now) && decide (0 < cfg.maxFails)
   | FailParse.counting c t =>
     decide ((if cfg.failWindow > 0 && w.now - t > cfg.failWindow then 0 else c) < cfg.maxFails)
   | FailParse.openSt => decide (0 < cfg.maxFails))

/-- A hashing-library environment whose primitives are instantiated
with a reference model: records carry their scheme prefix and the
primitive accepts exactly the hashed plaintext (the contract of a
collision-free password hash). -/
def libEnvW : LibEnv where
  shaCryptFeature := true
  argon2Feature := true
  envScheme := Scheme.sha512Crypt
  shaSimple := fun p => Except.ok ('$' :: '6' :: '$' :: p)
  argonHashPassword := fun p =>
    Except.ok ('$' :: 'a' :: 'r' :: 'g' :: 'o' :: 'n' :: '2' :: 'i' :: 'd' :: '$' :: p)
  shaCheck := fun c r => decide (r = '$' :: '6' :: '$' :: c)
  argonParseOk := fun _ => true
  argonVerify := fun c r =>
    decide (r = '$' :: 'a' :: 'r' :: 'g' :: 'o' :: 'n' :: '2' :: 'i' :: 'd' :: '$' :: c)

/-- `libEnvW` with the sha-crypt cargo feature disabled while the
configured scheme still selects SHA512-CRYPT. -/
def libEnvNoSha : LibEnv := { libEnvW with shaCryptFeature := false }

/-- `libEnvW` with argon2id configured. -/
def libEnvArgon : LibEnv := { libEnvW with envScheme := Scheme.argon2id }

/-- Configuration with `PIN_MAX_FAILS=3`, `PIN_LOCKOUT_SECS=0` and the
default 900-second window. -/
def cfgLockoutZero : Config :=
  { maxFails := 3, lockoutSecs := 0, failWindow := 900, minLen := 4, maxLen := 6 }

/-- A locked-out (count 3 ≥ threshold 3) user observed after the
900-second window has expired, presenting a wrong candidate. -/
def wWindowExpired : World where
  user := "alice".data
  dirResolved := some "/etc/pin.d".data
  storedRaw := some "$6$x".data
  failFile := some "3:1000".data
  failOpenOk := true
  stdinData := "2468\n".data
  now := 2000
  verifies := fun _ => false

/-- The same locked-out user observed while the window is still open,
presenting the correct candidate. -/
def wWindowOpen : World where
  user := "alice".data
  dirResolved := some "/etc/pin.d".data
  storedRaw := some "$6$x".data
  failFile := some "3:1000".data
  failOpenOk := true
  stdinData := "2468\n".data
  now := 1500
  verifies := fun _ => true

/-- An invocation for the all-digit username `1234` with no secret file
provisioned. -/
def wAllDigitUser : World where
  user := "1234".data
  dirResolved := some "/etc/pin.d".data
  storedRaw := none
  failFile := none
  failOpenOk := true
  stdinData := "2468\n".data
  now := 0
  verifies := fun _ => false

/-- An invocation for user `bob` whose secret file is missing, with a
pre-existing failure record. -/
def wMissingSecret : World where
  user := "bob".data
  dirResolved := some "/etc/pin.d".data
  storedRaw := none
  failFile := some "2:100".data
  failOpenOk := true
  stdinData := "2468\n".data
  now := 200
  verifies := fun _ => false

/-- An invocation whose stdin candidate (`12`) is shorter than the
default minimum length 4. -/
def wShortCandidate : World where
  user := "alice".data
  dirResolved := some "/etc/pin.d".data
  storedRaw := some "$6$x".data
  failFile := some "2:100".data
  failOpenOk := true
  stdinData := "12\n".data
  now := 200
  verifies := fun _ => false

/-- An invocation whose stdin ends in two newlines; the stored PIN is
`12345`. -/
def wDoubleNewline : World where
  user := "alice".data
  dirResolved := some "/etc/pin.d".data
  storedRaw := some "$6$x".data
  failFile := none
  failOpenOk := true
  stdinData := "12345\n\n".data
  now := 0
  verifies := fun c => decide (c = "12345".data)

/-- A requested directory that is itself a symbolic link whose target
is a root-owned mode-0700 directory (so the followed metadata is
clean). -/
def dirViewSymlink : DirView where
  isAbsolute := true
  metadataOf := some { isSymlinkFileType := false, uid := 0, mode := 0o700 }
  pathIsSymlink := true

/-- A root-owned check on a directory owned by uid 1000. -/
def dirViewBadOwner : DirView where
  isAbsolute := true
  metadataOf := some { isSymlinkFileType := false, uid := 1000, mode := 0o700 }
  pathIsSymlink := false

/-- A provisioner invocation whose username argument climbs out of the
store directory. -/
def genEnvTraversal : GenpinEnv where
  args := ["../../etc/cron.d/evil".data]
  dir := "/etc/pin.d".data
  nonInteractive := some "2468".data
  prompt1 := []
  prompt2 := []
  minLen := 4
  maxLen := 6
  createDirOk := true
  openWriteOk := true
  hashResult := Except.ok "$6$h".data

/-! ## Helper lemmas -/

/-- The code's stdin-stripping is `List.rdropWhile` on newline. -/
theorem trim_end_eq_rdropWhile (s : RStr) :
    trim_end_matches_nl s = List.rdropWhile (fun c => c = '\n') s := rfl

/-- A record carrying the argon2 prefix does not carry the
sha512-crypt prefix. -/
theorem starts_with_argon_not_sha {r : RStr}
    (h : starts_with r ('$' :: 'a' :: 'r' :: 'g' :: 'o' :: 'n' :: '2' :: []) = true) :
    starts_with r ('$' :: '6' :: '$' :: []) = false := by
  match r with
  | [] => simp [starts_with] at h
  | [c] => simp [starts_with] at h
  | c1 :: c2 :: rest =>
    simp only [starts_with, Bool.and_eq_true, beq_iff_eq] at h
    obtain ⟨h1, h2, -⟩ := h
    subst h1; subst h2
    simp [starts_with]

/-- The reference sha primitive of `libEnvW` satisfies the password
hash contract: records carry the `$6$` prefix and verify exactly the
hashed plaintext. -/
theorem libEnvW_sha_contract (q r : RStr) (h : libEnvW.shaSimple q = Except.ok r) :
    starts_with r ('$' :: '6' :: '$' :: []) = true ∧
    ∀ c, libEnvW.shaCheck c r = decide (c = q) := by
  simp only [libEnvW] at h
  injection h with h
  subst h
  refine ⟨by simp [starts_with], ?_⟩
  intro c
  simp only [libEnvW]
  rw [decide_eq_decide]
  constructor
  · intro h
    injection h with _ h; injection h with _ h; injection h with _ h
    exact h.symm
  · intro h; rw [h]

/-- The reference argon2 primitive of `libEnvW` satisfies the password
hash contract: records carry the `$argon2` prefix, parse, and verify
exactly the hashed plaintext. -/
theorem libEnvW_argon_contract (q r : RStr) (h : libEnvW.argonHashPassword q = Except.ok r) :
    starts_with r ('$' :: 'a' :: 'r' :: 'g' :: 'o' :: 'n' :: '2' :: []) = true ∧
    libEnvW.argonParseOk r = true ∧
    ∀ c, libEnvW.argonVerify c r = decide (c = q) := by
  simp only [libEnvW] at h
  injection h with h
  subst h
  refine ⟨by simp [starts_with], rfl, ?_⟩
  intro c
  simp only [libEnvW]
  rw [decide_eq_decide]
  constructor
  · intro h
    repeat injection h with _ h
    exact h.symm
  · intro h; rw [h]

/-! ## Claims -/

/-- Claim C1, counterexample: with `lockout = 0`, threshold 3, the
default 900-second window, and a persisted count of 3 failures first
recorded at epoch second 1000, an invocation at epoch second 2000
(window expired) with a wrong candidate exits MISMATCH (1), not
LOCKED (2): the window reset of `check_pin.rs` line 186 runs before the
threshold gate of line 190 and clears the over-threshold count. -/
theorem c1_lockout_zero_counterexample :
    cfgLockoutZero.lockoutSecs = 0 ∧
    parse_fail_line wWindowExpired.now (rust_trim "3:1000".data) = FailParse.counting 3 1000 ∧
    cfgLockoutZero.maxFails ≤ 3 ∧
    check_pin_main cfgLockoutZero wWindowExpired =
      { exitCode := EXIT_MISMATCH, failFile := some "1:2000\n".data } :=
  ⟨rfl, by decide, by decide, by decide⟩

/-- Claim C2, code evaluated at the failing input: the all-digit
username `1234` passes `validate_username` (contradicting the
function's own comment "not all digits"), and the verifier proceeds
past the username gate — here, with no secret provisioned, it exits
MISMATCH (1) instead of the CONFIG (4) the claim requires. -/
theorem c2_all_digit_username_accepted :
    validate_username "1234".data = true ∧
    check_pin_main defaultConfig wAllDigitUser =
      { exitCode := EXIT_MISMATCH, failFile := none } :=
  ⟨by decide, by decide⟩

/-- Claim C3, counterexample: under the privileged identity, a
requested path that is itself a symbolic link resolves successfully
whenever its target's metadata is clean, because `fs::metadata` follows
symlinks and therefore never reports a symlink file type; the claim
says such a path must fail with CONFIG. -/
theorem c3_symlink_counterexample :
    dirViewSymlink.pathIsSymlink = true ∧
    secure_resolve_pin_dir true "/etc/pin.d".data dirViewSymlink =
      some "/etc/pin.d".data :=
  ⟨rfl, by decide⟩

/-- Claim C4, counterexample: when the configured scheme is
SHA512-CRYPT but the `sha-crypt` feature is not compiled in, `hash_pin`
returns `UNSUPPORTED_SCHEME` through an early `return` that never
reaches the `pin.zeroize()` call, leaving the plaintext PIN buffer
intact. -/
theorem c4_error_path_counterexample :
    (hash_pin libEnvNoSha "1234".data).1 = Except.error PinHashError.unsupportedScheme ∧
    (hash_pin libEnvNoSha "1234".data).2 = "1234".data :=
  ⟨rfl, rfl⟩

/-- Claim C7, counterexample: on the stdin contents `"1234\n\n"` the
code's `trim_end_matches('\n')` removes both trailing newlines and
yields `"1234"`, while the spec's "strip a single trailing newline"
yields `"1234\n"`; the difference is observable: for stdin
`"12345\n\n"` the code's candidate is the stored PIN and the verifier
exits OK, whereas the spec's candidate would contain a newline and be
rejected as INPUT. -/
theorem c7_double_newline_counterexample :
    trim_end_matches_nl "1234\n\n".data = "1234".data ∧
    strip_single_trailing_newline "1234\n\n".data = "1234\n".data ∧
    (strip_single_trailing_newline "12345\n\n".data).all is_ascii_digit = false ∧
    check_pin_main defaultConfig wDoubleNewline =
      { exitCode := EXIT_OK, failFile := some [] } :=
  ⟨by decide, by decide, by decide, by decide⟩

/-- Claim C1 as amended: when `lockout = 0` and the persisted failure
count has reached the threshold, every subsequent invocation exits
LOCKED (2) and leaves the failure record unchanged — as long as the
failure window has not expired (`window = 0`, or `now − first_ts ≤
window`); regardless of stdin contents or candidate correctness. -/
theorem c1_amended_locked_in_window (cfg : Config) (w : World) (c t : Nat) (d s : RStr)
    (hu1 : w.user.isEmpty = false)
    (hu2 : validate_username w.user = true)
    (hd : w.dirResolved = some d)
    (hs : w.storedRaw = some s)
    (h0 : cfg.lockoutSecs = 0)
    (hp : parse_fail_line w.now
        (rust_trim (if w.failOpenOk then w.failFile.getD [] else [])) = FailParse.counting c t)
    (hc : cfg.maxFails ≤ c)
    (hw : cfg.failWindow = 0 ∨ w.now - t ≤ cfg.failWindow) :
    check_pin_main cfg w =
      { exitCode := EXIT_LOCKED,
        failFile := if w.failOpenOk then some (w.failFile.getD []) else w.failFile } := by
  have hwb : (cfg.failWindow > 0 && decide (w.now - t > cfg.failWindow)) = false := by
    rcases hw with hw | hw
    · simp [hw]
    · have h2 : ¬(w.now - t > cfg.failWindow) := by omega
      simp [h2]
  simp only [check_pin_main, hu1, hu2, hd, hs, hp, Bool.false_eq_true, if_false,
    Bool.not_true, Bool.not_eq_true']
  simp [check_pin_after_parse, hwb, hc, h0]

/-- Witness for the amended claim C1: threshold 3, lockout 0, the
record `3:1000` observed at epoch second 1500 (window still open) with
the correct candidate on stdin still exits LOCKED and keeps the
record. -/
theorem c1_amended_locked_in_window_witness :
    check_pin_main cfgLockoutZero wWindowOpen =
      { exitCode := EXIT_LOCKED, failFile := some "3:1000".data } := by
  have h := c1_amended_locked_in_window cfgLockoutZero wWindowOpen 3 1000
    "/etc/pin.d".data "$6$x".data (by decide) (by decide) rfl rfl rfl (by decide)
    (by decide) (Or.inr (by decide))
  rw [h]; decide

/-- Claim C3 as amended: under the privileged identity, directory
resolution fails (→ CONFIG) iff the requested path is not absolute, or
stat fails, or the stat target (after following symlinks, which is what
`fs::metadata` does) is not owned by the privileged identity or has
group/world-write bits; whether the path itself is a symbolic link has
no effect.  Under a non-privileged identity the path is accepted as
given.  The hypothesis is the `std::fs::metadata` API fact that the
reported file type of a followed stat is never a symlink. -/
theorem c3_amended_resolution (input : RStr) (v : DirView)
    (hapi : ∀ md, v.metadataOf = some md → md.isSymlinkFileType = false) :
    (secure_resolve_pin_dir true input v = none ↔
      (v.isAbsolute = false ∨ v.metadataOf = none ∨
        ∃ md, v.metadataOf = some md ∧
          (md.uid ≠ 0 ∨ (md.mode &&& 0o7777) &&& 0o022 ≠ 0))) ∧
    secure_resolve_pin_dir false input v = some input := by
  refine ⟨?_, rfl⟩
  cases habs : v.isAbsolute with
  | false => simp [secure_resolve_pin_dir, habs]
  | true =>
    cases hmd : v.metadataOf with
    | none => simp [secure_resolve_pin_dir, habs, hmd]
    | some md =>
      have hsym := hapi md hmd
      by_cases huid : md.uid = 0
      · by_cases hmode : (md.mode &&& 0o7777) &&& 0o022 = 0
        · simp [secure_resolve_pin_dir, habs, hmd, hsym, huid, hmode]
        · simp [secure_resolve_pin_dir, habs, hmd, hsym, huid, hmode]
      · simp [secure_resolve_pin_dir, habs, hmd, hsym, huid]

/-- Witness for the amended claim C3: an absolute, non-symlink path
owned by uid 1000 is rejected under the privileged identity. -/
theorem c3_amended_resolution_witness :
    secure_resolve_pin_dir true "/etc/pin.d".data dirViewBadOwner = none := by
  have h := c3_amended_resolution "/etc/pin.d".data dirViewBadOwner
    (by intro md hm; injection hm with hm; subst hm; rfl)
  exact h.1.mpr (Or.inr (Or.inr
    ⟨{ isSymlinkFileType := false, uid := 1000, mode := 0o700 }, rfl, Or.inl (by decide)⟩))

/-- Claim C4 as amended: `hash_pin` scrubs the plaintext PIN buffer on
the success path, and on the `UNSUPPORTED_SCHEME` and `HASH_FAILURE`
error returns it leaves the buffer unscrubbed (the early `return`s skip
the `pin.zeroize()` at the end of the function). -/
theorem c4_scrub_amended (env : LibEnv) (pin : RStr) :
    (∀ r, (hash_pin env pin).1 = Except.ok r → (hash_pin env pin).2 = []) ∧
    (∀ e, (hash_pin env pin).1 = Except.error e → (hash_pin env pin).2 = pin) := by
  cases hsch : env.envScheme with
  | sha512Crypt =>
    by_cases hf : env.shaCryptFeature
    · cases he : env.shaSimple pin with
      | error e => simp [hash_pin, hsch, hf, he, zeroize]
      | ok out => simp [hash_pin, hsch, hf, he, zeroize]
    · simp [hash_pin, hsch, hf]
  | argon2id =>
    by_cases hf : env.argon2Feature
    · cases he : env.argonHashPassword pin with
      | error e => simp [hash_pin, hsch, hf, he, zeroize]
      | ok out => simp [hash_pin, hsch, hf, he, zeroize]
    · simp [hash_pin, hsch, hf]

/-- Witness for the amended claim C4: a successful hash leaves an empty
buffer; an `UNSUPPORTED_SCHEME` return leaves the plaintext intact. -/
theorem c4_scrub_amended_witness :
    (hash_pin libEnvW "1234".data).2 = [] ∧
    (hash_pin libEnvNoSha "1234".data).2 = "1234".data :=
  ⟨(c4_scrub_amended libEnvW "1234".data).1 ('$' :: '6' :: '$' :: "1234".data) rfl,
   (c4_scrub_amended libEnvNoSha "1234".data).2 PinHashError.unsupportedScheme rfl⟩

/-- Claim C5: outcome persistence after hash verification under a live
failure-state handle.  On success the file is truncated to zero length
and the exit code is OK (0).  On failure the count is incremented; at
or past the threshold with `lockout > 0` the record becomes
`lock:(now+lockout)` and the exit is LOCKED (2); at or past the
threshold with `lockout = 0` the record is `count:first_ts` and the
exit is LOCKED (2); below the threshold the record is `count:first_ts`
and the exit is MISMATCH (1). -/
theorem c5_outcome_persistence (cfg : Config) (f : Option RStr) (now c t : Nat) (ok : Bool)
    (hsat : now + cfg.lockoutSecs < 2 ^ 64) :
    (ok = true → after_verify cfg true f now c t ok =
      { exitCode := EXIT_OK, failFile := some [] }) ∧
    (ok = false → after_verify cfg true f now c t ok =
      (if cfg.maxFails ≤ c + 1 then
        if 0 < cfg.lockoutSecs then
          { exitCode := EXIT_LOCKED, failFile := some (render_lock (now + cfg.lockoutSecs)) }
        else { exitCode := EXIT_LOCKED, failFile := some (render_count (c + 1) t) }
      else { exitCode := EXIT_MISMATCH, failFile := some (render_count (c + 1) t) })) := by
  have hmin : sat_add_u64 now cfg.lockoutSecs = now + cfg.lockoutSecs := by
    unfold sat_add_u64; omega
  constructor
  · intro h; subst h; simp [after_verify]
  · intro h; subst h
    by_cases h1 : cfg.maxFails ≤ c + 1 <;> by_cases h2 : 0 < cfg.lockoutSecs <;>
      simp [after_verify, hmin, h1, h2, ge_iff_le]

/-- Witness for claim C5: with the default configuration (threshold 5,
lockout 300), a fifth failure at epoch second 1000 persists `lock:1300`
and exits LOCKED. -/
theorem c5_outcome_persistence_witness :
    after_verify defaultConfig true none 1000 4 900 false =
      { exitCode := EXIT_LOCKED, failFile := some (render_lock 1300) } := by
  have h := (c5_outcome_persistence defaultConfig none 1000 4 900 false (by decide)).2 rfl
  rw [h]; decide

/-- Claim C9: when the username passes validation and the directory
resolves but the secret file is missing or unreadable, the verifier
exits MISMATCH (1) — the same code as a wrong PIN — and the
failure-state file is neither created nor modified (the exit happens
before the failure-state open). -/
theorem c9_missing_secret (cfg : Config) (w : World)
    (hu1 : w.user.isEmpty = false) (hu2 : validate_username w.user = true)
    (hd : ∃ d, w.dirResolved = some d) (hs : w.storedRaw = none) :
    check_pin_main cfg w = { exitCode := EXIT_MISMATCH, failFile := w.failFile } := by
  obtain ⟨d, hd⟩ := hd
  simp [check_pin_main, hu1, hu2, hd, hs]

/-- Witness for claim C9: user `bob`, secret absent, pre-existing
failure record `2:100` — exit 1 and the record is untouched. -/
theorem c9_missing_secret_witness :
    check_pin_main defaultConfig wMissingSecret =
      { exitCode := EXIT_MISMATCH, failFile := some "2:100".data } := by
  have h := c9_missing_secret defaultConfig wMissingSecret (by decide) (by decide)
    ⟨"/etc/pin.d".data, rfl⟩ rfl
  rw [h]; rfl

/-- Helper for claim C8: once the entry gate has passed, a candidate
that is empty, out of the length bounds, or not all digits makes the
rest of the invocation exit INPUT (3) without writing the
failure-state file. -/
theorem after_parse_bad_candidate_input (cfg : Config) (w : World) (canWrite : Bool)
    (fo : Option RStr) (c0 t0 : Nat)
    (hgate : (if cfg.failWindow > 0 ∧ w.now - t0 > cfg.failWindow then 0 else c0)
      < cfg.maxFails)
    (hbad : trim_end_matches_nl w.stdinData = [] ∨
            utf8_len (trim_end_matches_nl w.stdinData) < cfg.minLen ∨
            cfg.maxLen < utf8_len (trim_end_matches_nl w.stdinData) ∨
            (trim_end_matches_nl w.stdinData).all is_ascii_digit = false) :
    check_pin_after_parse cfg w canWrite fo c0 t0 =
      { exitCode := EXIT_INPUT, failFile := fo } := by
  by_cases hwin : cfg.failWindow > 0 ∧ w.now - t0 > cfg.failWindow
  case pos =>
    rw [if_pos hwin] at hgate
    have hb : (decide (cfg.failWindow > 0) && decide (w.now - t0 > cfg.failWindow)) = true := by
      simp [hwin.1, hwin.2]
    have hlt : ¬(cfg.maxFails ≤ 0) := by omega
    by_cases hemp : trim_end_matches_nl w.stdinData = []
    · simp [check_pin_after_parse, hb, hlt, hemp]
    · have hemp' : (trim_end_matches_nl w.stdinData).isEmpty = false := by
        simpa [List.isEmpty_iff] using hemp
      rcases hbad with hbad | hbad | hbad | hbad
      · exact absurd hbad hemp
      · simp [check_pin_after_parse, hb, hlt, hemp', hbad]
      · simp [check_pin_after_parse, hb, hlt, hemp', hbad]
      · simp [check_pin_after_parse, hb, hlt, hemp', hbad]
  case neg =>
    rw [if_neg hwin] at hgate
    have hb : (decide (cfg.failWindow > 0) && decide (w.now - t0 > cfg.failWindow)) = false := by
      by_cases hA : cfg.failWindow > 0
      · by_cases hB : w.now - t0 > cfg.failWindow
        · exact absurd ⟨hA, hB⟩ hwin
        · simp [hB]
      · simp [hA]
    have hlt : ¬(cfg.maxFails ≤ c0) := by omega
    by_cases hemp : trim_end_matches_nl w.stdinData = []
    · simp [check_pin_after_parse, hb, hlt, hemp]
    · have hemp' : (trim_end_matches_nl w.stdinData).isEmpty = false := by
        simpa [List.isEmpty_iff] using hemp
      rcases hbad with hbad | hbad | hbad | hbad
      · exact absurd hbad hemp
      · simp [check_pin_after_parse, hb, hlt, hemp', hbad]
      · simp [check_pin_after_parse, hb, hlt, hemp', hbad]
      · simp [check_pin_after_parse, hb, hlt, hemp', hbad]

/-- Claim C8: an invocation that reaches candidate ingestion and whose
stdin-derived candidate is empty, shorter than the configured minimum,
longer than the configured maximum, or contains a non-digit, exits
INPUT (3); the failure-state contents are not modified (at most, an
absent file has been created empty by the earlier open, which encodes
the same zero-failure state). -/
theorem c8_bad_candidate_input (cfg : Config) (w : World)
    (hr : reaches_candidate cfg w = true)
    (hbad : trim_end_matches_nl w.stdinData = [] ∨
            utf8_len (trim_end_matches_nl w.stdinData) < cfg.minLen ∨
            cfg.maxLen < utf8_len (trim_end_matches_nl w.stdinData) ∨
            (trim_end_matches_nl w.stdinData).all is_ascii_digit = false) :
    (check_pin_main cfg w).exitCode = EXIT_INPUT ∧
    ((check_pin_main cfg w).failFile = w.failFile ∨
      (w.failFile = none ∧ (check_pin_main cfg w).failFile = some [])) := by
  simp only [reaches_candidate, Bool.and_eq_true, Bool.not_eq_true'] at hr
  obtain ⟨⟨⟨⟨hu1, hu2⟩, hd⟩, hs⟩, hgate⟩ := hr
  obtain ⟨d, hd⟩ := Option.isSome_iff_exists.mp hd
  obtain ⟨s, hs⟩ := Option.isSome_iff_exists.mp hs
  have hmain : check_pin_main cfg w =
      { exitCode := EXIT_INPUT,
        failFile := if w.failOpenOk then some (w.failFile.getD []) else w.failFile } := by
    cases hp : parse_fail_line w.now
        (rust_trim (if w.failOpenOk then w.failFile.getD [] else [])) with
    | lockedUntil u =>
      rw [hp] at hgate
      simp only [Bool.and_eq_true, decide_eq_true_eq] at hgate
      obtain ⟨hle, hpos⟩ := hgate
      have hnlt : ¬(w.now < u) := by omega
      have hg : (if cfg.failWindow > 0 ∧ w.now - w.now > cfg.failWindow then 0 else 0)
          < cfg.maxFails := by
        split <;> omega
      simp only [check_pin_main, hu1, hu2, hd, hs, hp, Bool.false_eq_true, if_false,
        Bool.not_true, Bool.not_eq_true', hnlt]
      exact after_parse_bad_candidate_input cfg w w.failOpenOk _ 0 w.now hg hbad
    | counting c t =>
      rw [hp] at hgate
      simp only [Bool.and_eq_true, decide_eq_true_eq] at hgate
      simp only [check_pin_main, hu1, hu2, hd, hs, hp, Bool.false_eq_true, if_false,
        Bool.not_true, Bool.not_eq_true']
      exact after_parse_bad_candidate_input cfg w w.failOpenOk _ c t hgate hbad
    | openSt =>
      rw [hp] at hgate
      simp only [decide_eq_true_eq] at hgate
      have hg : (if cfg.failWindow > 0 ∧ w.now - w.now > cfg.failWindow then 0 else 0)
          < cfg.maxFails := by
        split <;> omega
      simp only [check_pin_main, hu1, hu2, hd, hs, hp, Bool.false_eq_true, if_false,
        Bool.not_true, Bool.not_eq_true']
      exact after_parse_bad_candidate_input cfg w w.failOpenOk _ 0 w.now hg hbad
  rw [hmain]
  refine ⟨rfl, ?_⟩
  cases hopen : w.failOpenOk with
  | false => exact Or.inl (by simp)
  | true =>
    cases hff : w.failFile with
    | none => exact Or.inr ⟨rfl, by simp⟩
    | some x => exact Or.inl (by simp)

/-- Witness for claim C8: the candidate `12` (from stdin `"12\n"`) is
shorter than the default minimum 4; the invocation exits INPUT and the
existing record `2:100` is untouched. -/
theorem c8_bad_candidate_input_witness :
    (check_pin_main defaultConfig wShortCandidate).exitCode = EXIT_INPUT ∧
    ((check_pin_main defaultConfig wShortCandidate).failFile = wShortCandidate.failFile ∨
      (wShortCandidate.failFile = none ∧
        (check_pin_main defaultConfig wShortCandidate).failFile = some [])) :=
  c8_bad_candidate_input defaultConfig wShortCandidate (by decide)
    (Or.inr (Or.inl (by decide)))

/-- Claim C6: for any hashing-library environment whose primitives meet
the password-hash contract (records carry their scheme prefix; a record
hashed from `P` verifies a candidate iff it equals `P` byte-for-byte),
every record produced by `hash_pin` from `P` is accepted by
`verify_pin` for exactly the candidates equal to `P`: scheme
auto-detection routes the record back to the primitive that made it. -/
theorem c6_hash_verify_roundtrip (env : LibEnv) (p c r : RStr)
    (hfs : env.shaCryptFeature = true) (hfa : env.argon2Feature = true)
    (hsha : ∀ q rec, env.shaSimple q = Except.ok rec →
      starts_with rec ('$' :: '6' :: '$' :: []) = true ∧
      ∀ cand, env.shaCheck cand rec = decide (cand = q))
    (harg : ∀ q rec, env.argonHashPassword q = Except.ok rec →
      starts_with rec ('$' :: 'a' :: 'r' :: 'g' :: 'o' :: 'n' :: '2' :: []) = true ∧
      env.argonParseOk rec = true ∧
      ∀ cand, env.argonVerify cand rec = decide (cand = q))
    (hok : (hash_pin env p).1 = Except.ok r) :
    (verify_pin env c r).1 = decide (c = p) := by
  cases hsch : env.envScheme with
  | sha512Crypt =>
    simp only [hash_pin, hsch, hfs, if_true] at hok
    cases he : env.shaSimple p with
    | error e => rw [he] at hok; simp at hok
    | ok out =>
      rw [he] at hok
      simp only at hok
      injection hok with hok
      subst hok
      obtain ⟨hpre, hcheck⟩ := hsha p out he
      simp [verify_pin, hpre, hfs, hcheck]
  | argon2id =>
    simp only [hash_pin, hsch, hfa, if_true] at hok
    cases he : env.argonHashPassword p with
    | error e => rw [he] at hok; simp at hok
    | ok out =>
      rw [he] at hok
      simp only at hok
      injection hok with hok
      subst hok
      obtain ⟨hpre, hparse, hcheck⟩ := harg p out he
      have hnot6 := starts_with_argon_not_sha hpre
      simp [verify_pin, hpre, hnot6, hfa, hparse, hcheck]

/-- Witness for claim C6: with the reference primitives of `libEnvW`,
the record hashed from `1234` verifies `1234` and rejects `9999`. -/
theorem c6_hash_verify_roundtrip_witness :
    (verify_pin libEnvW "1234".data ('$' :: '6' :: '$' :: "1234".data)).1 = true ∧
    (verify_pin libEnvW "9999".data ('$' :: '6' :: '$' :: "1234".data)).1 = false := by
  constructor
  · have h := c6_hash_verify_roundtrip libEnvW "1234".data "1234".data
      ('$' :: '6' :: '$' :: "1234".data) rfl rfl libEnvW_sha_contract libEnvW_argon_contract rfl
    rw [h]; decide
  · have h := c6_hash_verify_roundtrip libEnvW "1234".data "9999".data
      ('$' :: '6' :: '$' :: "1234".data) rfl rfl libEnvW_sha_contract libEnvW_argon_contract rfl
    rw [h]; decide

/-- Claim C7 as amended: candidate ingestion strips every trailing
newline: the candidate is the raw stdin contents with all trailing
`'\n'` characters removed (so it never ends in a newline, and the
stripped suffix is a run of newlines). -/
theorem c7_amended_strip_all_newlines (s : RStr) :
    ∃ k, s = trim_end_matches_nl s ++ List.replicate k '\n' ∧
      ∀ c, (trim_end_matches_nl s).getLast? = some c → c ≠ '\n' := by
  refine ⟨(List.rtakeWhile (fun c => c = '\n') s).length, ?_, ?_⟩
  · rw [trim_end_eq_rdropWhile]
    have hsplit : s = List.rdropWhile (fun c => c = '\n') s
        ++ List.rtakeWhile (fun c => c = '\n') s := by
      rw [List.rdropWhile, List.rtakeWhile, ← List.reverse_append,
        List.takeWhile_append_dropWhile, List.reverse_reverse]
    have hrep : List.rtakeWhile (fun c => c = '\n') s =
        List.replicate (List.rtakeWhile (fun c => c = '\n') s).length '\n' := by
      rw [List.eq_replicate_iff]
      refine ⟨rfl, ?_⟩
      intro b hb
      have := List.mem_rtakeWhile_imp hb
      simpa using this
    rw [← hrep]
    exact hsplit
  · intro c hc
    rw [trim_end_eq_rdropWhile] at hc
    have hne : List.rdropWhile (fun c => c = '\n') s ≠ [] := by
      intro h; rw [h] at hc; simp at hc
    have hlast := List.rdropWhile_last_not (fun c => c = '\n') s hne
    have : (List.rdropWhile (fun c => c = '\n') s).getLast hne = c := by
      have := List.getLast?_eq_getLast _ hne
      rw [this] at hc
      exact Option.some.inj hc
    rw [this] at hlast
    simpa using hlast

/-- Claim C10: the provisioner applies no validation to its username
argument: for every argument string `u` — including strings containing
`/` or `..` — once the PIN checks pass, the failure-state reset removes
exactly `{dir}/{u}.fail` and the secret is written to exactly
`{dir}/{u}.passwd` by direct interpolation. -/
theorem c10_unvalidated_username (env : GenpinEnv) (user : RStr)
    (hu : env.args.head? = some user)
    (hp : (resolved_pins env).1 = (resolved_pins env).2)
    (hm0 : env.minLen ≠ 0) (hm32 : env.minLen ≤ 32) (hmm : env.minLen ≤ env.maxLen)
    (hl1 : env.minLen ≤ utf8_len (resolved_pins env).1)
    (hl2 : utf8_len (resolved_pins env).1 ≤ env.maxLen)
    (hdig : (resolved_pins env).1.all is_ascii_digit = true)
    (hcd : env.createDirOk = true)
    (h : RStr) (hh : env.hashResult = Except.ok h) :
    genpin_main env =
      { exitOk := env.openWriteOk,
        removedFail := some (env.dir ++ '/' :: (user ++ ".fail".data)),
        wrotePasswd := if env.openWriteOk then
            some (env.dir ++ '/' :: (user ++ ".passwd".data), h ++ ['\n'])
          else none } := by
  have hm32' : ¬(env.minLen > 32) := by omega
  have hmm' : ¬(env.maxLen < env.minLen) := by omega
  have hl1' : ¬(utf8_len (resolved_pins env).1 < env.minLen) := by omega
  have hl2' : ¬(utf8_len (resolved_pins env).1 > env.maxLen) := by omega
  have hl1p : ¬(utf8_len (resolved_pins env).2 < env.minLen) := by rw [← hp]; omega
  have hl2p : ¬(utf8_len (resolved_pins env).2 > env.maxLen) := by rw [← hp]; omega
  have hnodig : ¬(∃ x, x ∈ (resolved_pins env).2 ∧ is_ascii_digit x = false) := by
    rw [← hp]
    rintro ⟨x, hx, hfalse⟩
    have hx2 := List.all_eq_true.mp hdig x hx
    simp [hx2] at hfalse
  simp only [genpin_main, hu, hp, ne_eq, not_true_eq_false, if_false, hm0, hm32', hmm',
    hl1', hl2', hdig, hcd, hh, Bool.or_self, Bool.not_true, Bool.not_eq_true',
    decide_eq_true_eq]
  cases ho : env.openWriteOk <;>
    simp [hm0, hm32', hmm', hl1p, hl2p, hnodig, hh, ho]

/-- Witness for claim C10: the argument `../../etc/cron.d/evil` makes
the provisioner remove `/etc/pin.d/../../etc/cron.d/evil.fail` and
write `/etc/pin.d/../../etc/cron.d/evil.passwd` — paths outside the
store directory. -/
theorem c10_unvalidated_username_witness :
    genpin_main genEnvTraversal =
      { exitOk := true,
        removedFail := some "/etc/pin.d/../../etc/cron.d/evil.fail".data,
        wrotePasswd := some ("/etc/pin.d/../../etc/cron.d/evil.passwd".data, "$6$h\n".data) } := by
  have h := c10_unvalidated_username genEnvTraversal "../../etc/cron.d/evil".data rfl
    (by decide) (by decide) (by decide) (by decide) (by decide) (by decide) (by decide) rfl
    "$6$h".data rfl
  rw [h]; decide

end PamAuth
